import Mathlib

/-!
Shallow embedding of the connection-wrapping layer of a shadowsocks-style
obfuscating proxy (`RemainConn`, `ObfsConn`, `DelayConn` and the accept
handler).  Bytes are modelled as `Nat`, the underlying `net.Conn` as an
explicit record of pending read events and a log of issued writes.  Fallible
operations return `Except`; Go's in-place mutation becomes explicit state
passing.  Loops in the source (chunk-length header parsing, `io.ReadFull`,
the graceful-close drain loop) are encoded with an explicit fuel argument;
every call site passes a fuel computed from a measure that strictly bounds
the number of iterations, so the out-of-fuel branch is unreachable on those
calls.
-/

/-- Errors distinguished by the source (each constructor corresponds to one
`fmt.Errorf` site or an underlying-I/O failure). -/
inductive Err where
  /-- an error propagated from the underlying connection -/
  | ioErr (s : String)
  /-- reading from an exhausted underlying stream -/
  | eofErr
  /-- `fmt.Errorf("short read")` -/
  | shortRead
  /-- `fmt.Errorf("unexcepted length character", ...)` -/
  | badLenChar (c : Nat)
  /-- `fmt.Errorf("incorrect chunked data")` -/
  | emptyChunkLen
  /-- a `strconv.ParseInt` failure (overflow of a 64-bit int) -/
  | parseIntErr
  /-- `fmt.Errorf("read from closed obfsconn")`: the end-of-stream marker -/
  | readClosed
  /-- `fmt.Errorf("read from closed connection")` -/
  | readAfterClose
  /-- `fmt.Errorf("concurrent read")` -/
  | concurrentRead
  /-- `fmt.Errorf("unexpected obfs header from ...")` -/
  | obfsHeader
  /-- out-of-fuel marker for the fuel-encoded loops (unreachable on the
  fuel values actually passed) -/
  | fuelOut
  deriving DecidableEq, Repr

deriving instance DecidableEq for Except

/-- One behaviour of the underlying connection on a `Read` call:
a block of available bytes, a zero-byte read with no error (legal for a Go
`io.Reader`), or a read error. -/
inductive InEvent where
  | data (bs : List Nat)
  | nilRead
  | err (e : String)
  deriving DecidableEq, Repr

/-- The underlying `net.Conn`: pending inbound read events, the log of
writes issued to it (one list entry per `Write` call), a flag making writes
fail, and a closed flag. -/
structure Conn where
  input : List InEvent
  output : List (List Nat)
  wfail : Bool
  closed : Bool
  deriving DecidableEq, Repr

/-- `net.Conn.Read` with a buffer of size `k`: delivers at most `k` bytes
from the front of the pending input. -/
def Conn.read (c : Conn) (k : Nat) : (Except Err (List Nat)) × Conn :=
  match c.input with
  | [] => (.error .eofErr, c)
  | .data bs :: rest =>
      if k < bs.length then
        (.ok (bs.take k), { c with input := .data (bs.drop k) :: rest })
      else
        (.ok bs, { c with input := rest })
  | .nilRead :: rest => (.ok [], { c with input := rest })
  | .err e :: rest => (.error (.ioErr e), { c with input := rest })

/-- `net.Conn.Write`: logs the written bytes as one write call, or fails. -/
def Conn.write (c : Conn) (bs : List Nat) : (Except Err Nat) × Conn :=
  if c.wfail then (.error (.ioErr "write error"), c)
  else (.ok bs.length, { c with output := c.output ++ [bs] })

/-- `net.Conn.Close`. -/
def Conn.close (c : Conn) : Conn := { c with closed := true }

/-- Size of an input event, for the loop measures. -/
def InEvent.size : InEvent → Nat
  | .data bs => bs.length + 1
  | .nilRead => 1
  | .err _ => 1

/-- Total size of the pending input: strictly decreases at every read that
does not end the surrounding loop. -/
def Conn.measure (c : Conn) : Nat := (c.input.map InEvent.size).sum

/-- `RemainConn`: a connection plus look-ahead bytes `remain` (already read
from the peer, not yet delivered) and `wremain` (to prepend to the next
write).  See the `RemainConn` struct in the source. -/
structure RemainConn where
  conn : Conn
  remain : List Nat
  wremain : List Nat
  deriving DecidableEq, Repr

def RemainConn.measure (c : RemainConn) : Nat := c.remain.length + c.conn.measure

/-- `RemainConn.Read`: serve from `remain` first (`n = copy(b, c.remain)`),
otherwise delegate to the underlying connection. -/
def RemainConn.Read (c : RemainConn) (k : Nat) : (Except Err (List Nat)) × RemainConn :=
  if c.remain.isEmpty then
    match Conn.read c.conn k with
    | (r, conn') => (r, { c with conn := conn' })
  else
    (.ok (c.remain.take k), { c with remain := c.remain.drop k })

/-- `RemainConn.Write`: if `wremain` is nonempty, issue one underlying write
of `wremain ++ b`, clear `wremain` on success (reporting `len b`), and leave
it in place on failure; otherwise delegate. -/
def RemainConn.Write (c : RemainConn) (b : List Nat) : (Except Err Nat) × RemainConn :=
  if c.wremain = [] then
    match Conn.write c.conn b with
    | (.ok n, conn') => (.ok n, { c with conn := conn' })
    | (.error e, conn') => (.error e, { c with conn := conn' })
  else
    match Conn.write c.conn (c.wremain ++ b) with
    | (.ok _, conn') => (.ok b.length, { c with conn := conn', wremain := [] })
    | (.error e, conn') => (.error e, { c with conn := conn' })

/-- `RemainConn.Close` (inherited `net.Conn.Close`). -/
def RemainConn.Close (c : RemainConn) : RemainConn := { c with conn := c.conn.close }

/-- Modelled from the spec: `buffersize` is a fixed buffer-capacity constant
of the repository that is not among the provided source files; the spec only
requires it to be a fixed capacity. -/
def buffersize : Nat := 4096

/-- Is `c` the ASCII code of a lowercase hexadecimal digit
(`'0'..'9'` or `'a'..'f'`), as tested by the chunk-length parsing loop? -/
def isHexDigit (c : Nat) : Bool := (48 ≤ c && c ≤ 57) || (97 ≤ c && c ≤ 102)

/-- Numeric value of a hexadecimal digit byte. -/
def hexVal (c : Nat) : Nat := if c ≤ 57 then c - 48 else c - 87

/-- ASCII code of the lowercase hexadecimal digit for `d < 16`. -/
def hexDigitChar (d : Nat) : Nat := if d < 10 then 48 + d else 87 + d

/-- Fuel-driven accumulator loop computing the lowercase hexadecimal digits
of `n`, most significant first (the digits `fmt.Sprintf("%x", n)` prints). -/
def hexCharsAux : Nat → Nat → List Nat → List Nat
  | 0, _, acc => acc
  | fuel + 1, n, acc =>
      if n < 16 then hexDigitChar n :: acc
      else hexCharsAux fuel (n / 16) (hexDigitChar (n % 16) :: acc)

/-- The bytes of `fmt.Sprintf("%x", n)`: lowercase hexadecimal, no leading
zeros, `"0"` for zero. -/
def hexChars (n : Nat) : List Nat := hexCharsAux (n + 1) n []

/-- The value `strconv.ParseInt(s, 16, 0)` computes from a string of
hexadecimal digit bytes (digit-by-digit accumulation). -/
def parseHexNat (ds : List Nat) : Nat := ds.foldl (fun a d => a * 16 + hexVal d) 0

/-- The full chunk frame built by `ObfsConn.Write(b)` in its local `wbuf`:
hex length, CR LF, payload, CR LF.  (The `n+16`-byte allocation in the
source never truncates: the hex digits of `n` plus the terminator always
fit in `n+16` bytes.) -/
def obfsFrame (b : List Nat) : List Nat :=
  hexChars b.length ++ [13, 10] ++ b ++ [13, 10]

/-- Modelled from the spec: the byte-at-a-time HTTP request/reply header
acceptor (`newHTTPRequestParser` / `newHTTPReplyParser` are not among the
provided source files).  The spec treats both as an acceptor that signals
"header complete" at the standard header terminator CR LF CR LF; `progress`
counts the matched bytes of that terminator. -/
structure HeaderAcceptor where
  progress : Nat
  deriving DecidableEq, Repr

/-- Modelled from the spec: feed one byte to the header acceptor; returns
the "header complete" signal and the updated acceptor. -/
def HeaderAcceptor.feed (p : HeaderAcceptor) (c : Nat) : Bool × HeaderAcceptor :=
  let expected := if p.progress % 2 = 0 then 13 else 10
  if c = expected then (p.progress + 1 = 4, { progress := p.progress + 1 })
  else if c = 13 then (false, { progress := 1 })
  else (false, { progress := 0 })

/-- Run the header acceptor over a byte list the way `readObfsHeader`'s
`for` loop does (`it` increments on the completing byte as well): returns
the final "complete" flag and the number of bytes consumed. -/
def runAcceptor : HeaderAcceptor → List Nat → Bool × Nat
  | _, [] => (false, 0)
  | p, b :: rest =>
      match p.feed b with
      | (true, _) => (true, 1)
      | (false, p') =>
          match runAcceptor p' rest with
          | (ok, m) => (ok, m + 1)

/-- The `ObfsConn` framer state (the lock fields of the source become the
`reading` / `destroy` flags they guard; the `pool` pointer becomes a flag,
the pool itself being passed explicitly to `Close`). -/
structure ObfsConn where
  rc : RemainConn
  resp : Bool := false
  req : Bool := false
  chunkLen : Nat := 0
  pool : Bool := false
  eos : Bool := false
  reading : Bool := false
  destroy : Bool := false
  deriving DecidableEq, Repr

def ObfsConn.measure (c : ObfsConn) : Nat := c.rc.measure

/-- `ObfsConn.readObfsHeader`: read up to `buffersize` bytes, feed them one
at a time to the role's header acceptor, fail on incompleteness, deliver at
most `k` of the leftover bytes past the header and park the rest in
`remain`. -/
def ObfsConn.readObfsHeader (c : ObfsConn) (k : Nat) :
    (Except Err (List Nat)) × ObfsConn :=
  match RemainConn.Read c.rc buffersize with
  | (.error e, rc') => (.error e, { c with rc := rc' })
  | (.ok bs, rc') =>
      if bs.length = 0 then (.error .shortRead, { c with rc := rc' })
      else
        let res : Bool × Nat :=
          if c.resp then runAcceptor { progress := 0 } bs
          else if c.req then runAcceptor { progress := 0 } bs
          else (false, 0)
        if res.1 = false then (.error .obfsHeader, { c with rc := rc' })
        else
          let leftover := bs.drop res.2
          if leftover.length ≠ 0 then
            (.ok (leftover.take k),
             { c with
               rc := { rc' with remain := rc'.remain ++ leftover.drop k },
               resp := false, req := false })
          else
            (.ok [], { c with rc := rc', resp := false, req := false })

/-- `ObfsConn.doRead`: consume the handshake header first if a role flag is
still set, then delegate to `RemainConn.Read`. -/
def ObfsConn.doRead (c : ObfsConn) (k : Nat) : (Except Err (List Nat)) × ObfsConn :=
  if c.req || c.resp then
    match c.readObfsHeader k with
    | (.error e, c') => (.error e, c')
    | (.ok bs, c') =>
        if bs.length ≠ 0 then (.ok bs, c')
        else
          match RemainConn.Read c'.rc k with
          | (r, rc') => (r, { c' with rc := rc' })
  else
    match RemainConn.Read c.rc k with
    | (r, rc') => (r, { c with rc := rc' })

/-- The chunk-length header loop of `readInLock`: read one byte at a time,
accumulate hexadecimal digits in `acc`, skip CR, stop at LF, fail on any
other byte, on a zero-byte read, or on a read error. -/
def parseLenLoop : Nat → ObfsConn → List Nat → (Except Err (List Nat)) × ObfsConn
  | 0, c, _ => (.error .fuelOut, c)
  | fuel + 1, c, acc =>
      match c.doRead 1 with
      | (.error e, c') => (.error e, c')
      | (.ok bs, c') =>
          match bs with
          | [] => (.error .shortRead, c')
          | b0 :: _ =>
              if isHexDigit b0 then parseLenLoop fuel c' (acc ++ [b0])
              else if b0 = 13 then parseLenLoop fuel c' acc
              else if b0 = 10 then (.ok acc, c')
              else (.error (.badLenChar b0), c')

/-- `io.ReadFull(&c.RemainConn, buf)` for `need` bytes: keep calling
`RemainConn.Read` until the bytes are gathered or a read errors (a zero-byte
success loops, as in `io.ReadAtLeast`). -/
def readFullRC : Nat → RemainConn → Nat → List Nat → (Except Err (List Nat)) × RemainConn
  | 0, rc, _, _ => (.error .fuelOut, rc)
  | fuel + 1, rc, need, acc =>
      if need = 0 then (.ok acc, rc)
      else
        match RemainConn.Read rc need with
        | (.error e, rc') => (.error e, rc')
        | (.ok bs, rc') => readFullRC fuel rc' (need - bs.length) (acc ++ bs)

/-- The first block of `readInLock` (`if c.chunkLen <= 2 && c.chunkLen > 0`):
drain the 1–2 remaining trailer bytes of the previous chunk (ignoring the
count actually read, as the source does) and reset `chunkLen`. -/
def ObfsConn.drainTrailer (c : ObfsConn) : (Except Err Unit) × ObfsConn :=
  if c.chunkLen ≤ 2 ∧ 0 < c.chunkLen then
    match c.doRead c.chunkLen with
    | (.error e, c') => (.error e, c')
    | (.ok _, c') => (.ok (), { c' with chunkLen := 0 })
  else (.ok (), c)

/-- The second block of `readInLock` (`if c.chunkLen == 0`): parse a fresh
chunk-length header.  An empty digit string is `"incorrect chunked data"`;
`strconv.ParseInt(_, 16, 0)` fails exactly when the value exceeds a 64-bit
int, hence the `2 ^ 63` bound; on success `chunkLen` becomes the parsed
length plus 2 for the trailing terminator. -/
def ObfsConn.parseHeader (c1 : ObfsConn) : (Except Err Unit) × ObfsConn :=
  if c1.chunkLen = 0 then
    match parseLenLoop (c1.measure + 1) c1 [] with
    | (.error e, c') => (.error e, c')
    | (.ok ds, c') =>
        if ds.length = 0 then (.error .emptyChunkLen, c')
        else
          let v := parseHexNat ds
          if v < 2 ^ 63 then (.ok (), { c' with chunkLen := v + 2 })
          else (.error .parseIntErr, c')
  else (.ok (), c1)

/-- The last block of `readInLock`: a bare 2-byte remainder is the
end-of-stream marker (consume it via `io.ReadFull`, set `eos`, report the
distinguished error); otherwise deliver up to `min(chunkLen, len b)` bytes
and charge any consumed trailer bytes against the reported count. -/
def ObfsConn.readBody (c2 : ObfsConn) (k : Nat) : (Except Err (List Nat)) × ObfsConn :=
  if c2.chunkLen = 2 then
    match readFullRC (c2.rc.measure + 1) c2.rc 2 [] with
    | (.error e, rc') => (.error e, { c2 with rc := rc' })
    | (.ok _, rc') => (.error .readClosed, { c2 with rc := rc', eos := true })
  else
    let s := if c2.chunkLen > k then k else c2.chunkLen
    match c2.doRead s with
    | (.error e, c') => (.error e, c')
    | (.ok bs, c') =>
        let rem := c2.chunkLen - bs.length
        let n := if rem < 2 then bs.length - (2 - rem) else bs.length
        (.ok (bs.take n), { c' with chunkLen := rem })

/-- `ObfsConn.readInLock`, the inbound chunk state machine, as the source
sequences it: return immediately on an empty buffer, drain a pending
trailer, parse a fresh chunk-length header, then handle the end-of-stream
marker or deliver payload. -/
def ObfsConn.readInLock (c : ObfsConn) (k : Nat) : (Except Err (List Nat)) × ObfsConn :=
  if k = 0 then (.ok [], c)
  else
    match c.drainTrailer with
    | (.error e, c') => (.error e, c')
    | (.ok _, c1) =>
        match c1.parseHeader with
        | (.error e, c') => (.error e, c')
        | (.ok _, c2) => c2.readBody k

/-- `ObfsConn.Read`: the destroyed / concurrent-read guards around
`readInLock` (checked and set under `c.lock` in the source). -/
def ObfsConn.Read (c : ObfsConn) (k : Nat) : (Except Err (List Nat)) × ObfsConn :=
  if c.destroy then (.error .readAfterClose, c)
  else if c.reading then (.error .concurrentRead, c)
  else
    match ObfsConn.readInLock { c with reading := true } k with
    | (r, c') => (r, { c' with reading := false })

/-- `ObfsConn.Write`: build the whole chunk frame in one buffer and issue it
as a single `RemainConn.Write`; report `len b` on success, `0` on error. -/
def ObfsConn.Write (c : ObfsConn) (b : List Nat) : (Except Err Nat) × ObfsConn :=
  match RemainConn.Write c.rc (obfsFrame b) with
  | (.ok _, rc') => (.ok b.length, { c with rc := rc' })
  | (.error e, rc') => (.error e, { c with rc := rc' })

/-- The bytes a read result delivered to the caller (`n = 0` on error, as in
the source's deferred error handling). -/
def readBytes (r : (Except Err (List Nat)) × ObfsConn) : List Nat :=
  match r.1 with
  | .ok bs => bs
  | .error _ => []

/-- The connection pool, reduced to the contract the source uses:
`Put` appends or fails. -/
structure ConnPool where
  conns : List ObfsConn
  putFails : Bool
  deriving DecidableEq, Repr

def ConnPool.put (p : ConnPool) (c : ObfsConn) : (Except Err Unit) × ConnPool :=
  if p.putFails then (.error (.ioErr "pool full"), p)
  else (.ok (), { p with conns := p.conns ++ [c] })

/-- Close the underlying connection of an `ObfsConn`
(`c.RemainConn.Close()`). -/
def ObfsConn.closeUnderlying (c : ObfsConn) : ObfsConn :=
  { c with rc := c.rc.Close }

/-- Result of the graceful-close drain loop: the error that ended it (if
any), the final framer state, and whether the peer's end-of-stream marker
was observed. -/
def closeDrainLoop : Nat → ObfsConn → (Option Err) × ObfsConn × Bool
  | 0, c => (some .fuelOut, c, false)
  | fuel + 1, c =>
      if c.eos then (none, c, true)
      else if c.reading then closeDrainLoop fuel c
      else
        match c.readInLock buffersize with
        | (.ok _, c') => closeDrainLoop fuel c'
        | (.error e, c') =>
            if c'.eos then (none, c', true)
            else (some e, c', false)

/-- Outcome of `ObfsConn.Close`: final framer state, final pool, and the
fresh framer submitted to the pool, if any.  Whether the underlying raw
connection was closed is recorded in its `closed` flag. -/
structure CloseOut where
  conn : ObfsConn
  pool : ConnPool
  pooled : Option ObfsConn
  deriving DecidableEq, Repr

/-- `ObfsConn.Close`: idempotency guard, plain close when poolless,
otherwise write the empty (end-of-stream) chunk, drain inbound chunks until
the peer's marker is seen, and submit a fresh framer around the same
underlying connection to the pool; any failure degrades to closing the
underlying connection. -/
def ObfsConn.Close (c : ObfsConn) (p : ConnPool) : CloseOut :=
  if c.destroy then { conn := c, pool := p, pooled := none }
  else
    let c := { c with destroy := true }
    if c.pool = false then
      { conn := c.closeUnderlying, pool := p, pooled := none }
    else
      match ObfsConn.Write c [] with
      | (.error _, c') => { conn := c'.closeUnderlying, pool := p, pooled := none }
      | (.ok _, c') =>
          match closeDrainLoop (c'.measure + 1) c' with
          | (_, c'', false) => { conn := c''.closeUnderlying, pool := p, pooled := none }
          | (_, c'', true) =>
              let fresh : ObfsConn := { rc := c''.rc, pool := true }
              match p.put fresh with
              | (.ok _, p') => { conn := c'', pool := p', pooled := some fresh }
              | (.error _, p') =>
                  { conn := c''.closeUnderlying, pool := p', pooled := none }

/-- The ASCII bytes of the disguise method token `"POST"`. -/
def postToken : List Nat := [80, 79, 83, 84]

/-- Modelled from the spec: `buildHTTPResponse("")` (not among the provided
source files) builds an HTTP-response-shaped disguise header block,
terminated per standard header conventions; its exact content is opaque to
this layer. -/
def buildHTTPResponse : List Nat :=
  ("HTTP/1.1 200 OK\r\n\r\n".toList.map Char.toNat)

/-- What `obfsAcceptHandler` hands back for an accepted connection. -/
inductive AcceptResult where
  /-- a failed or empty initial read: the raw connection is closed -/
  | closed
  /-- plain passthrough: a `RemainConn` (no framing ever applied) -/
  | plain (rc : RemainConn)
  /-- accept-role framer -/
  | obfs (oc : ObfsConn)
  deriving DecidableEq, Repr

def AcceptResult.isPlain : AcceptResult → Bool
  | .plain _ => true
  | _ => false

/-- `obfsAcceptHandler`: read the initial bytes; on error or zero bytes the
connection is closed; if more than 4 bytes were read and the first 4 are not
`"POST"`, wrap as a plain `RemainConn` carrying them as look-ahead;
otherwise build an accept-role `ObfsConn` with the peeked bytes as
look-ahead, the disguise response as unsent bytes, and the listener's pool
attached. -/
def obfsAcceptHandler (conn : Conn) : AcceptResult :=
  match Conn.read conn buffersize with
  | (.error _, _) => .closed
  | (.ok bs, conn') =>
      if bs.length = 0 then .closed
      else if bs.length > 4 ∧ bs.take 4 ≠ postToken then
        .plain { conn := conn', remain := bs, wremain := [] }
      else
        .obfs { rc := { conn := conn', remain := bs, wremain := buildHTTPResponse },
                req := true, pool := true }

/-- `DelayConn`, the write-coalescer: `wbuf` holds the currently buffered
bytes (the source's `wbuf[:off]`, so `off = wbuf.length`), `started` is the
lazy flush-loop liveness flag, and `signals` counts `cond.Signal` calls (the
condition variable itself is a scheduling primitive with no data content). -/
structure DelayConn where
  conn : Conn
  wbuf : List Nat
  started : Bool
  signals : Nat
  deriving DecidableEq, Repr

/-- `DelayConn.Write`: empty writes return immediately; if `len b + off`
reaches `buffersize`, flush buffer and `b` together as one immediate
underlying write and reset the offset; otherwise append to the buffer, start
the flush loop lazily, and signal it. -/
def DelayConn.Write (c : DelayConn) (b : List Nat) : (Except Err Nat) × DelayConn :=
  let n := b.length
  if n = 0 then (.ok 0, c)
  else if buffersize ≤ n + c.wbuf.length then
    match Conn.write c.conn (c.wbuf ++ b) with
    | (.ok _, conn') => (.ok n, { c with conn := conn', wbuf := [] })
    | (.error e, conn') => (.error e, { c with conn := conn', wbuf := [] })
  else
    (.ok n, { c with wbuf := c.wbuf ++ b, started := true, signals := c.signals + 1 })

/-- A canonical underlying connection: pending events `evs`, nothing written
yet, writes succeeding, not closed. -/
def mkConn (evs : List InEvent) : Conn :=
  { input := evs, output := [], wfail := false, closed := false }

/-- A canonical `RemainConn` with empty look-ahead buffers. -/
def mkRC (evs : List InEvent) : RemainConn :=
  { conn := mkConn evs, remain := [], wremain := [] }

/-- A canonical post-handshake `ObfsConn`: role flags cleared, not
destroyed, no end-of-stream seen. -/
def mkObfs (evs : List InEvent) (cl : Nat) (p r : Bool) : ObfsConn :=
  { rc := mkRC evs, chunkLen := cl, pool := p, reading := r }

@[simp] theorem mkConn_input (evs : List InEvent) : (mkConn evs).input = evs := rfl

@[simp] theorem mkConn_output (evs : List InEvent) : (mkConn evs).output = [] := rfl

@[simp] theorem mkConn_wfail (evs : List InEvent) : (mkConn evs).wfail = false := rfl

@[simp] theorem mkConn_closed (evs : List InEvent) : (mkConn evs).closed = false := rfl

@[simp] theorem mkConn_eta (evs : List InEvent) :
    (⟨evs, [], false, false⟩ : Conn) = mkConn evs := rfl

@[simp] theorem mkRC_conn (evs : List InEvent) : (mkRC evs).conn = mkConn evs := rfl

@[simp] theorem mkRC_remain (evs : List InEvent) : (mkRC evs).remain = [] := rfl

@[simp] theorem mkRC_wremain (evs : List InEvent) : (mkRC evs).wremain = [] := rfl

@[simp] theorem mkRC_eta (evs : List InEvent) :
    (⟨mkConn evs, [], []⟩ : RemainConn) = mkRC evs := rfl

@[simp] theorem mkObfs_rc (evs cl p r) : (mkObfs evs cl p r).rc = mkRC evs := rfl

@[simp] theorem mkObfs_resp (evs cl p r) : (mkObfs evs cl p r).resp = false := rfl

@[simp] theorem mkObfs_req (evs cl p r) : (mkObfs evs cl p r).req = false := rfl

@[simp] theorem mkObfs_chunkLen (evs cl p r) : (mkObfs evs cl p r).chunkLen = cl := rfl

@[simp] theorem mkObfs_pool (evs cl p r) : (mkObfs evs cl p r).pool = p := rfl

@[simp] theorem mkObfs_eos (evs cl p r) : (mkObfs evs cl p r).eos = false := rfl

@[simp] theorem mkObfs_reading (evs cl p r) : (mkObfs evs cl p r).reading = r := rfl

@[simp] theorem mkObfs_destroy (evs cl p r) : (mkObfs evs cl p r).destroy = false := rfl

@[simp] theorem mkObfs_eta (evs : List InEvent) (cl : Nat) (p r : Bool) :
    (⟨mkRC evs, false, false, cl, p, false, r, false⟩ : ObfsConn) = mkObfs evs cl p r := rfl

@[simp] theorem measure_mkRC (evs : List InEvent) :
    (mkRC evs).measure = (evs.map InEvent.size).sum := by
  simp [RemainConn.measure, Conn.measure]

@[simp] theorem measure_mkObfs (evs : List InEvent) (cl : Nat) (p r : Bool) :
    (mkObfs evs cl p r).measure = (evs.map InEvent.size).sum := by
  simp [ObfsConn.measure]

/- ### Hexadecimal encoding: the digits of `fmt.Sprintf("%x", n)` parse back
to `n` and are lowercase hexadecimal digit bytes. -/

theorem hexDigitChar_isHex {d : Nat} (hd : d < 16) : isHexDigit (hexDigitChar d) = true := by
  unfold hexDigitChar isHexDigit
  split <;> simp <;> omega

theorem hexVal_hexDigitChar {d : Nat} (hd : d < 16) : hexVal (hexDigitChar d) = d := by
  unfold hexDigitChar hexVal
  split <;> (rename_i h; simp) <;> omega

theorem hexCharsAux_append (fuel : Nat) :
    ∀ (n : Nat) (acc : List Nat),
      hexCharsAux fuel n acc = hexCharsAux fuel n [] ++ acc := by
  induction fuel with
  | zero => intro n acc; simp [hexCharsAux]
  | succ f ih =>
      intro n acc
      by_cases h : n < 16
      · simp [hexCharsAux, h]
      · rw [hexCharsAux, hexCharsAux, if_neg h, if_neg h, ih (n / 16),
          ih (n / 16) [hexDigitChar (n % 16)], List.append_assoc]
        rfl

theorem hexCharsAux_isHex (fuel : Nat) :
    ∀ (n : Nat), n < fuel → ∀ d ∈ hexCharsAux fuel n [], isHexDigit d = true := by
  induction fuel with
  | zero => intro n hn; omega
  | succ f ih =>
      intro n hn d hd
      by_cases h : n < 16
      · simp [hexCharsAux, h] at hd
        subst hd; exact hexDigitChar_isHex h
      · rw [hexCharsAux, if_neg h, hexCharsAux_append] at hd
        rcases List.mem_append.mp hd with h1 | h1
        · exact ih (n / 16) (by
            have := Nat.div_lt_self (by omega : 0 < n) (by omega : 1 < 16)
            omega) d h1
        · simp at h1; subst h1
          exact hexDigitChar_isHex (by omega : n % 16 < 16)

theorem hexChars_isHex (n : Nat) : ∀ d ∈ hexChars n, isHexDigit d = true :=
  hexCharsAux_isHex (n + 1) n (Nat.lt_succ_self n)

theorem hexCharsAux_foldl (fuel : Nat) :
    ∀ (n : Nat), n < fuel → ∀ (a : Nat),
      List.foldl (fun a d => a * 16 + hexVal d) a (hexCharsAux fuel n [])
        = a * 16 ^ (hexCharsAux fuel n []).length + n := by
  induction fuel with
  | zero => intro n hn; omega
  | succ f ih =>
      intro n hn a
      by_cases h : n < 16
      · simp [hexCharsAux, h, hexVal_hexDigitChar h]
      · rw [hexCharsAux, if_neg h, hexCharsAux_append]
        have hdiv : n / 16 < f := by
          have := Nat.div_lt_self (by omega : 0 < n) (by omega : 1 < 16)
          omega
        rw [List.foldl_append, ih (n / 16) hdiv a]
        simp [List.length_append, hexVal_hexDigitChar (by omega : n % 16 < 16)]
        rw [pow_succ]
        have := Nat.div_add_mod n 16
        ring_nf
        omega

theorem parseHexNat_hexChars (n : Nat) : parseHexNat (hexChars n) = n := by
  unfold parseHexNat hexChars
  rw [hexCharsAux_foldl (n + 1) n (Nat.lt_succ_self n)]
  simp

theorem hexChars_ne_nil (n : Nat) : hexChars n ≠ [] := by
  unfold hexChars
  by_cases h : n < 16
  · rw [hexCharsAux, if_pos h]; simp
  · rw [hexCharsAux, if_neg h, hexCharsAux_append]; simp

/- ### Single-step read lemmas on canonical states. -/

theorem doRead_data_one (x : Nat) (l : List Nat) (hl : l ≠ []) (evs : List InEvent)
    (cl : Nat) (p r : Bool) :
    ObfsConn.doRead (mkObfs (.data (x :: l) :: evs) cl p r) 1
      = (.ok [x], mkObfs (.data l :: evs) cl p r) := by
  have h1 : 0 < l.length := List.length_pos.mpr hl
  simp [ObfsConn.doRead, RemainConn.Read, Conn.read, h1]

theorem doRead_data_all (l : List Nat) (evs : List InEvent) (cl : Nat) (p r : Bool)
    (k : Nat) (hk : ¬ k < l.length) :
    ObfsConn.doRead (mkObfs (.data l :: evs) cl p r) k
      = (.ok l, mkObfs evs cl p r) := by
  simp [ObfsConn.doRead, RemainConn.Read, Conn.read, hk]

theorem doRead_data_part (l : List Nat) (evs : List InEvent) (cl : Nat) (p r : Bool)
    (k : Nat) (hk : k < l.length) :
    ObfsConn.doRead (mkObfs (.data l :: evs) cl p r) k
      = (.ok (l.take k), mkObfs (.data (l.drop k) :: evs) cl p r) := by
  simp [ObfsConn.doRead, RemainConn.Read, Conn.read, hk]

/- ### The chunk-length header loop on a well-formed header. -/

theorem parseLenLoop_digits :
    ∀ (ds : List Nat) (fuel : Nat) (acc bs : List Nat) (evs : List InEvent)
      (cl : Nat) (p r : Bool),
      (∀ d ∈ ds, isHexDigit d = true) → ds.length + 2 ≤ fuel → bs ≠ [] →
      parseLenLoop fuel (mkObfs (.data (ds ++ 13 :: 10 :: bs) :: evs) cl p r) acc
        = (.ok (acc ++ ds), mkObfs (.data bs :: evs) cl p r) := by
  intro ds
  induction ds with
  | nil =>
      intro fuel acc bs evs cl p r _ hfuel hbs
      obtain ⟨f, rfl⟩ : ∃ f, fuel = (f + 1) + 1 := ⟨fuel - 2, by omega⟩
      rw [List.nil_append, parseLenLoop, doRead_data_one 13 (10 :: bs) (by simp) evs cl p r]
      simp only []
      rw [show isHexDigit 13 = false from rfl]
      simp only [Bool.false_eq_true, if_false, if_pos rfl]
      rw [parseLenLoop, doRead_data_one 10 bs hbs evs cl p r]
      simp only []
      rw [show isHexDigit 10 = false from rfl]
      simp
  | cons d ds ih =>
      intro fuel acc bs evs cl p r hds hfuel hbs
      obtain ⟨f, rfl⟩ : ∃ f, fuel = f + 1 := ⟨fuel - 1, by omega⟩
      have htail : ds ++ 13 :: 10 :: bs ≠ [] := by simp
      rw [List.cons_append, parseLenLoop,
        doRead_data_one d (ds ++ 13 :: 10 :: bs) htail evs cl p r]
      simp only []
      rw [if_pos (hds d (List.mem_cons_self d ds))]
      rw [ih f (acc ++ [d]) bs evs cl p r (fun x hx => hds x (List.mem_cons_of_mem d hx))
        (by simp at hfuel ⊢; omega) hbs]
      simp

theorem readFullRC_two (fuel : Nat) (hfuel : 2 ≤ fuel) (rest : List Nat)
    (evs : List InEvent) :
    readFullRC fuel (mkRC (.data (13 :: 10 :: rest) :: evs)) 2 []
      = (.ok [13, 10], mkRC (if rest.isEmpty then evs else .data rest :: evs)) := by
  obtain ⟨f, rfl⟩ : ∃ f, fuel = (f + 1) + 1 := ⟨fuel - 2, by omega⟩
  rw [readFullRC]
  rcases rest with _ | ⟨x, xs⟩
  · simp [RemainConn.Read, Conn.read, readFullRC]
  · have h2 : 2 < (13 :: 10 :: x :: xs).length := by simp
    simp [RemainConn.Read, Conn.read, h2, readFullRC]

/- ### Stage lemmas: evaluating `drainTrailer`, `parseHeader`, `readBody`
on canonical states. -/

theorem drainTrailer_zero (c : ObfsConn) (h : c.chunkLen = 0) :
    c.drainTrailer = (.ok (), c) := by
  unfold ObfsConn.drainTrailer
  rw [if_neg (by omega)]

theorem drainTrailer_big (c : ObfsConn) (h : 2 < c.chunkLen) :
    c.drainTrailer = (.ok (), c) := by
  unfold ObfsConn.drainTrailer
  rw [if_neg (by omega)]

theorem parseHeader_skip (c : ObfsConn) (h : c.chunkLen ≠ 0) :
    c.parseHeader = (.ok (), c) := by
  unfold ObfsConn.parseHeader
  rw [if_neg h]

theorem parseHeader_digits (ds : List Nat) (hds : ∀ d ∈ ds, isHexDigit d = true)
    (hlen : ds ≠ []) (hv : parseHexNat ds < 2 ^ 63)
    (bs : List Nat) (hbs : bs ≠ []) (evs : List InEvent) (p r : Bool) :
    ObfsConn.parseHeader (mkObfs (.data (ds ++ 13 :: 10 :: bs) :: evs) 0 p r)
      = (.ok (), mkObfs (.data bs :: evs) (parseHexNat ds + 2) p r) := by
  unfold ObfsConn.parseHeader
  rw [if_pos (mkObfs_chunkLen _ _ _ _), measure_mkObfs]
  rw [parseLenLoop_digits ds _ [] bs evs 0 p r hds
    (by
      simp only [List.map_cons, List.sum_cons, InEvent.size, List.length_append,
        List.length_cons]
      omega)
    hbs]
  simp only [List.nil_append]
  rw [if_neg (by simpa [List.length_eq_zero] using hlen)]
  rw [if_pos hv]
  simp

theorem readBody_marker (rest : List Nat) (evs : List InEvent) (p r : Bool) (k : Nat) :
    ObfsConn.readBody (mkObfs (.data (13 :: 10 :: rest) :: evs) 2 p r) k
      = (.error .readClosed,
         { mkObfs (if rest.isEmpty then evs else .data rest :: evs) 2 p r with
           eos := true }) := by
  unfold ObfsConn.readBody
  rw [if_pos (mkObfs_chunkLen _ _ _ _), mkObfs_rc, measure_mkRC]
  rw [readFullRC_two _ (by
      simp only [List.map_cons, List.sum_cons, InEvent.size, List.length_cons]
      omega) rest evs]
  rcases rest with _ | ⟨x, xs⟩ <;> rfl

theorem readBody_payload (body : List Nat) (evs : List InEvent) (p r : Bool) (k : Nat)
    (h3 : 3 ≤ body.length) (hk : 1 ≤ k) :
    ObfsConn.readBody (mkObfs (.data body :: evs) body.length p r) k
      = (.ok (body.take
            (if body.length - min body.length k < 2
             then min body.length k - (2 - (body.length - min body.length k))
             else min body.length k)),
         mkObfs (if min body.length k < body.length
                 then .data (body.drop (min body.length k)) :: evs else evs)
           (body.length - min body.length k) p r) := by
  unfold ObfsConn.readBody
  rw [if_neg (by rw [mkObfs_chunkLen]; omega)]
  simp only [mkObfs_chunkLen]
  by_cases hbk : k < body.length
  · rw [if_pos (by omega : body.length > k)]
    rw [doRead_data_part body evs body.length p r k hbk]
    simp only []
    have hmin : min body.length k = k := by omega
    have htk : (body.take k).length = k := by
      simp [List.length_take]; omega
    rw [hmin, htk]
    rw [if_pos hbk]
    by_cases hrem : body.length - k < 2
    · rw [if_pos hrem]
      simp only [List.take_take]
      rw [show min (k - (2 - (body.length - k))) k = k - (2 - (body.length - k))
        by omega]
      simp
    · rw [if_neg hrem]
      simp only [List.take_take, min_self]
      simp
  · rw [if_neg (by omega : ¬ body.length > k)]
    rw [doRead_data_all body evs body.length p r body.length (by omega)]
    simp only []
    have hmin : min body.length k = body.length := by omega
    rw [hmin, Nat.sub_self]
    rw [if_pos (by omega : (0 : Nat) < 2)]
    rw [if_neg (by omega : ¬ body.length < body.length)]
    simp

/- ### Decoding a full well-formed chunk in one `readInLock` call. -/

theorem readInLock_frame (b : List Nat) (hb : b.length ≤ buffersize) (hne : b ≠ [])
    (evs : List InEvent) (p r : Bool) :
    ObfsConn.readInLock (mkObfs (.data (obfsFrame b) :: evs) 0 p r) (b.length + 2)
      = (.ok b, mkObfs evs 0 p r) := by
  have hpos : 0 < b.length := List.length_pos.mpr hne
  unfold ObfsConn.readInLock
  rw [if_neg (by omega : ¬ b.length + 2 = 0)]
  rw [drainTrailer_zero _ (mkObfs_chunkLen _ _ _ _)]
  simp only []
  have hframe : obfsFrame b = hexChars b.length ++ 13 :: 10 :: (b ++ [13, 10]) := by
    simp [obfsFrame]
  rw [hframe]
  rw [parseHeader_digits (hexChars b.length) (hexChars_isHex b.length)
    (hexChars_ne_nil b.length)
    (by
      rw [parseHexNat_hexChars]
      have : (4096 : Nat) < 2 ^ 63 := by norm_num
      have hb' : b.length ≤ 4096 := hb
      omega)
    (b ++ [13, 10]) (by simp) evs p r]
  simp only [parseHexNat_hexChars]
  rw [show b.length + 2 = (b ++ [13, 10]).length by simp]
  refine Eq.trans (readBody_payload (b ++ [13, 10]) evs p r ((b ++ [13, 10]).length)
    (by simp only [List.length_append, List.length_cons, List.length_nil]; omega)
    (by simp only [List.length_append, List.length_cons, List.length_nil]; omega)) ?_
  rw [min_self, Nat.sub_self]
  rw [if_pos (by omega : (0 : Nat) < 2)]
  have hlen : (b ++ [13, 10]).length - (2 - 0) = b.length := by simp
  rw [hlen, List.take_left b [13, 10]]
  simp

/- ### The empty-chunk (end-of-stream) marker through `readInLock`. -/

theorem readInLock_marker (rest : List Nat) (evs : List InEvent) (p r : Bool)
    (k : Nat) (hk : 1 ≤ k) :
    ObfsConn.readInLock (mkObfs (.data (48 :: 13 :: 10 :: 13 :: 10 :: rest) :: evs) 0 p r) k
      = (.error .readClosed,
         { mkObfs (if rest.isEmpty then evs else .data rest :: evs) 2 p r with
           eos := true }) := by
  unfold ObfsConn.readInLock
  rw [if_neg (by omega : ¬ k = 0)]
  rw [drainTrailer_zero _ (mkObfs_chunkLen _ _ _ _)]
  simp only []
  have hshape : (48 : Nat) :: 13 :: 10 :: 13 :: 10 :: rest
      = [48] ++ 13 :: 10 :: (13 :: 10 :: rest) := by simp
  rw [hshape]
  rw [parseHeader_digits [48] (by intro d hd; simp at hd; subst hd; rfl)
    (by simp) (by norm_num [parseHexNat, hexVal])
    (13 :: 10 :: rest) (by simp) evs p r]
  simp only []
  rw [show parseHexNat [48] + 2 = 2 by norm_num [parseHexNat, hexVal]]
  exact readBody_marker rest evs p r k

/- ### The `Read` wrapper on canonical states, and header-parse failures. -/

theorem read_mkObfs_eq (evs : List InEvent) (cl : Nat) (p : Bool) (k : Nat) :
    ObfsConn.Read (mkObfs evs cl p false) k
      = ((ObfsConn.readInLock (mkObfs evs cl p true) k).1,
         { (ObfsConn.readInLock (mkObfs evs cl p true) k).2 with reading := false }) := by
  unfold ObfsConn.Read
  simp only [mkObfs_destroy, mkObfs_reading, Bool.false_eq_true, if_false,
    mkObfs_rc, mkObfs_resp, mkObfs_req, mkObfs_chunkLen, mkObfs_pool, mkObfs_eos,
    mkObfs_eta]

theorem doRead_one_any (x : Nat) (l : List Nat) (evs : List InEvent) (cl : Nat) (p r : Bool) :
    ObfsConn.doRead (mkObfs (.data (x :: l) :: evs) cl p r) 1
      = (.ok [x], mkObfs (if l.isEmpty then evs else .data l :: evs) cl p r) := by
  rcases l with _ | ⟨y, ys⟩
  · rw [doRead_data_all _ _ _ _ _ _ (by simp)]
    simp
  · rw [doRead_data_one x (y :: ys) (by simp) evs cl p r]
    simp

theorem doRead_nilRead (evs : List InEvent) (cl : Nat) (p r : Bool) (k : Nat) :
    ObfsConn.doRead (mkObfs (.nilRead :: evs) cl p r) k
      = (.ok [], mkObfs evs cl p r) := by
  simp [ObfsConn.doRead, RemainConn.Read, Conn.read]

theorem parseLenLoop_bad (b0 : Nat) (hhex : isHexDigit b0 = false) (h13 : b0 ≠ 13)
    (h10 : b0 ≠ 10) (fuel : Nat) (hf : 1 ≤ fuel) (l : List Nat) (evs : List InEvent)
    (cl : Nat) (p r : Bool) (acc : List Nat) :
    parseLenLoop fuel (mkObfs (.data (b0 :: l) :: evs) cl p r) acc
      = (.error (.badLenChar b0),
         mkObfs (if l.isEmpty then evs else .data l :: evs) cl p r) := by
  obtain ⟨f, rfl⟩ : ∃ f, fuel = f + 1 := ⟨fuel - 1, by omega⟩
  rw [parseLenLoop, doRead_one_any]
  simp [hhex, h13, h10]

theorem parseLenLoop_lf (fuel : Nat) (hf : 1 ≤ fuel) (l : List Nat) (evs : List InEvent)
    (cl : Nat) (p r : Bool) (acc : List Nat) :
    parseLenLoop fuel (mkObfs (.data (10 :: l) :: evs) cl p r) acc
      = (.ok acc, mkObfs (if l.isEmpty then evs else .data l :: evs) cl p r) := by
  obtain ⟨f, rfl⟩ : ∃ f, fuel = f + 1 := ⟨fuel - 1, by omega⟩
  rw [parseLenLoop, doRead_one_any]
  simp [isHexDigit]

theorem parseLenLoop_nilRead (fuel : Nat) (hf : 1 ≤ fuel) (evs : List InEvent)
    (cl : Nat) (p r : Bool) (acc : List Nat) :
    parseLenLoop fuel (mkObfs (.nilRead :: evs) cl p r) acc
      = (.error .shortRead, mkObfs evs cl p r) := by
  obtain ⟨f, rfl⟩ : ∃ f, fuel = f + 1 := ⟨fuel - 1, by omega⟩
  rw [parseLenLoop, doRead_nilRead]

theorem readInLock_badChar (b0 : Nat) (hhex : isHexDigit b0 = false) (h13 : b0 ≠ 13)
    (h10 : b0 ≠ 10) (l : List Nat) (evs : List InEvent) (p r : Bool) (k : Nat)
    (hk : 1 ≤ k) :
    ObfsConn.readInLock (mkObfs (.data (b0 :: l) :: evs) 0 p r) k
      = (.error (.badLenChar b0),
         mkObfs (if l.isEmpty then evs else .data l :: evs) 0 p r) := by
  unfold ObfsConn.readInLock
  rw [if_neg (by omega : ¬ k = 0)]
  rw [drainTrailer_zero _ (mkObfs_chunkLen _ _ _ _)]
  simp only []
  unfold ObfsConn.parseHeader
  rw [if_pos (mkObfs_chunkLen _ _ _ _)]
  rw [parseLenLoop_bad b0 hhex h13 h10 _ (by omega) l evs 0 p r []]

theorem readInLock_emptyLen (l : List Nat) (evs : List InEvent) (p r : Bool) (k : Nat)
    (hk : 1 ≤ k) :
    ObfsConn.readInLock (mkObfs (.data (10 :: l) :: evs) 0 p r) k
      = (.error .emptyChunkLen,
         mkObfs (if l.isEmpty then evs else .data l :: evs) 0 p r) := by
  unfold ObfsConn.readInLock
  rw [if_neg (by omega : ¬ k = 0)]
  rw [drainTrailer_zero _ (mkObfs_chunkLen _ _ _ _)]
  simp only []
  unfold ObfsConn.parseHeader
  rw [if_pos (mkObfs_chunkLen _ _ _ _)]
  rw [parseLenLoop_lf _ (by omega) l evs 0 p r []]
  simp

theorem readInLock_shortRead (evs : List InEvent) (p r : Bool) (k : Nat) (hk : 1 ≤ k) :
    ObfsConn.readInLock (mkObfs (.nilRead :: evs) 0 p r) k
      = (.error .shortRead, mkObfs evs 0 p r) := by
  unfold ObfsConn.readInLock
  rw [if_neg (by omega : ¬ k = 0)]
  rw [drainTrailer_zero _ (mkObfs_chunkLen _ _ _ _)]
  simp only []
  unfold ObfsConn.parseHeader
  rw [if_pos (mkObfs_chunkLen _ _ _ _)]
  rw [parseLenLoop_nilRead _ (by omega) evs 0 p r []]

/- ### Claim theorems. -/

/-- C1: for every payload `b` with `0 ≤ len b ≤ buffersize`,
`ObfsConn.Write` encodes `b` as one chunk (a single underlying write of
`obfsFrame b`), and decoding that frame with the chunk reader `readInLock`,
called with a sufficiently large buffer, yields back exactly the bytes of
`b` — including `len b = 0`, where the empty chunk delivers zero bytes (it
is reported as the end-of-stream marker). -/
theorem chunk_write_read_roundtrip (b : List Nat) (hb : b.length ≤ buffersize) :
    ((ObfsConn.Write (mkObfs [] 0 false false) b).2).rc.conn.output = [obfsFrame b]
    ∧ readBytes (ObfsConn.readInLock (mkObfs [.data (obfsFrame b)] 0 false false)
        (b.length + 2)) = b := by
  constructor
  · simp [ObfsConn.Write, RemainConn.Write, Conn.write]
  · by_cases hne : b = []
    · subst hne; decide
    · rw [readInLock_frame b hb hne [] false false]
      rfl

/-- Witness for C1 at `b = [104, 105]`. -/
theorem chunk_write_read_roundtrip_witness :
    ([104, 105] : List Nat).length ≤ buffersize
    ∧ (((ObfsConn.Write (mkObfs [] 0 false false) [104, 105]).2).rc.conn.output
          = [obfsFrame [104, 105]]
       ∧ readBytes (ObfsConn.readInLock
           (mkObfs [.data (obfsFrame [104, 105])] 0 false false)
           (([104, 105] : List Nat).length + 2)) = [104, 105]) :=
  ⟨by decide, chunk_write_read_roundtrip [104, 105] (by decide)⟩

/-- C2: `ObfsConn.Write b` issues exactly one underlying write — any pending
`wremain` prefix followed by the frame: the lowercase hexadecimal encoding
of `len b`, then CR LF, then `b`, then CR LF — reporting `len b` written;
the length digits are lowercase hexadecimal and parse back to `len b`; and
the frame of an empty (or nil) slice is exactly the 5 bytes
`'0' CR LF CR LF`. -/
theorem obfs_write_one_frame (c : ObfsConn) (b : List Nat)
    (hf : c.rc.conn.wfail = false) :
    ((ObfsConn.Write c b).2).rc.conn.output
        = c.rc.conn.output
            ++ [c.rc.wremain ++ (hexChars b.length ++ [13, 10] ++ b ++ [13, 10])]
    ∧ (ObfsConn.Write c b).1 = .ok b.length
    ∧ obfsFrame [] = [48, 13, 10, 13, 10]
    ∧ parseHexNat (hexChars b.length) = b.length
    ∧ (∀ d ∈ hexChars b.length, isHexDigit d = true) := by
  refine ⟨?_, ?_, by decide, parseHexNat_hexChars b.length, hexChars_isHex b.length⟩
  · by_cases hw : c.rc.wremain = [] <;>
      simp [ObfsConn.Write, RemainConn.Write, Conn.write, hw, hf, obfsFrame]
  · by_cases hw : c.rc.wremain = [] <;>
      simp [ObfsConn.Write, RemainConn.Write, Conn.write, hw, hf]

/-- Witness for C2 at a fresh connection and `b = [104, 105]`. -/
theorem obfs_write_one_frame_witness :
    (mkObfs [] 0 false false).rc.conn.wfail = false
    ∧ (((ObfsConn.Write (mkObfs [] 0 false false) [104, 105]).2).rc.conn.output
          = (mkObfs [] 0 false false).rc.conn.output
              ++ [(mkObfs [] 0 false false).rc.wremain
                    ++ (hexChars ([104, 105] : List Nat).length ++ [13, 10]
                          ++ [104, 105] ++ [13, 10])]
       ∧ (ObfsConn.Write (mkObfs [] 0 false false) [104, 105]).1
          = .ok ([104, 105] : List Nat).length
       ∧ obfsFrame [] = [48, 13, 10, 13, 10]
       ∧ parseHexNat (hexChars ([104, 105] : List Nat).length)
          = ([104, 105] : List Nat).length
       ∧ (∀ d ∈ hexChars ([104, 105] : List Nat).length, isHexDigit d = true)) :=
  ⟨by decide, obfs_write_one_frame (mkObfs [] 0 false false) [104, 105] (by decide)⟩

/-- C3: a `Read` on a connection whose next inbound chunk header declares
length zero consumes exactly the 2 trailing terminator bytes of the marker,
sets the end-of-stream flag, and returns zero bytes with the distinguished
end-of-stream error `readClosed` rather than data or a generic error. -/
theorem read_zero_length_chunk (rest : List Nat) (evs : List InEvent) (p : Bool)
    (k : Nat) (hk : 1 ≤ k) :
    (ObfsConn.Read (mkObfs (.data (48 :: 13 :: 10 :: 13 :: 10 :: rest) :: evs) 0 p false) k).1
        = .error .readClosed
    ∧ ((ObfsConn.Read (mkObfs (.data (48 :: 13 :: 10 :: 13 :: 10 :: rest) :: evs) 0 p false) k).2).eos
        = true
    ∧ ((ObfsConn.Read (mkObfs (.data (48 :: 13 :: 10 :: 13 :: 10 :: rest) :: evs) 0 p false) k).2).rc.conn.input
        = (if rest.isEmpty then evs else .data rest :: evs)
    ∧ readBytes (ObfsConn.Read (mkObfs (.data (48 :: 13 :: 10 :: 13 :: 10 :: rest) :: evs) 0 p false) k)
        = [] := by
  rw [read_mkObfs_eq, readInLock_marker rest evs p true k hk]
  exact ⟨rfl, rfl, rfl, rfl⟩

/-- Witness for C3 with an exact 5-byte marker and `k = 5`. -/
theorem read_zero_length_chunk_witness :
    (1 : Nat) ≤ 5
    ∧ ((ObfsConn.Read (mkObfs (.data (48 :: 13 :: 10 :: 13 :: 10 :: []) :: []) 0 false false) 5).1
          = .error .readClosed
       ∧ ((ObfsConn.Read (mkObfs (.data (48 :: 13 :: 10 :: 13 :: 10 :: []) :: []) 0 false false) 5).2).eos
          = true
       ∧ ((ObfsConn.Read (mkObfs (.data (48 :: 13 :: 10 :: 13 :: 10 :: []) :: []) 0 false false) 5).2).rc.conn.input
          = (if ([] : List Nat).isEmpty then ([] : List InEvent) else .data [] :: [])
       ∧ readBytes (ObfsConn.Read (mkObfs (.data (48 :: 13 :: 10 :: 13 :: 10 :: []) :: []) 0 false false) 5)
          = []) :=
  ⟨by decide, read_zero_length_chunk [] [] false 5 (by decide)⟩

/-- The `RemainConn` left behind by a graceful close that wrote our 5-byte
end-of-stream marker and drained the peer's own 5-byte marker. -/
def drainedRC : RemainConn :=
  { conn := { input := [], output := [[48, 13, 10, 13, 10]], wfail := false, closed := false },
    remain := [], wremain := [] }

/-- C4: `Close` is idempotent (second call is a no-op); with no pool it just
closes the underlying connection; with a pool, if the drain loop observes
the peer's end-of-stream marker, a fresh framer (state reset, same pool)
around the same — still open — underlying connection is submitted to the
pool; if a read error occurs before the marker, the underlying connection
is closed and nothing is pooled. -/
theorem close_protocol :
    (∀ (c : ObfsConn) (p : ConnPool), c.destroy = true →
       ObfsConn.Close c p = { conn := c, pool := p, pooled := none })
    ∧ (∀ (c : ObfsConn) (p : ConnPool), c.destroy = false → c.pool = false →
       ObfsConn.Close c p
         = { conn := ObfsConn.closeUnderlying { c with destroy := true },
             pool := p, pooled := none })
    ∧ (∀ cs : List ObfsConn,
       ObfsConn.Close (mkObfs [.data [48, 13, 10, 13, 10]] 0 true false)
           { conns := cs, putFails := false }
         = { conn := { rc := drainedRC, chunkLen := 2, pool := true,
                       eos := true, destroy := true },
             pool := { conns := cs ++ [{ rc := drainedRC, pool := true }],
                       putFails := false },
             pooled := some { rc := drainedRC, pool := true } })
    ∧ (∀ (cs : List ObfsConn) (e : String),
       ObfsConn.Close (mkObfs [.err e] 0 true false) { conns := cs, putFails := false }
         = { conn := { rc := { conn := { input := [], output := [[48, 13, 10, 13, 10]],
                                         wfail := false, closed := true },
                               remain := [], wremain := [] },
                       pool := true, destroy := true },
             pool := { conns := cs, putFails := false },
             pooled := none }) := by
  refine ⟨?_, ?_, ?_, ?_⟩
  · intro c p h
    simp [ObfsConn.Close, h]
  · intro c p h1 h2
    simp [ObfsConn.Close, h1, h2]
  · intro cs
    rfl
  · intro cs e
    rfl

/-- Witness for C4, all four parts at concrete inputs. -/
theorem close_protocol_witness :
    ObfsConn.Close { mkObfs [] 0 false false with destroy := true }
        { conns := [], putFails := false }
      = { conn := { mkObfs [] 0 false false with destroy := true },
          pool := { conns := [], putFails := false }, pooled := none }
    ∧ ObfsConn.Close (mkObfs [] 0 false false) { conns := [], putFails := false }
      = { conn := ObfsConn.closeUnderlying { mkObfs [] 0 false false with destroy := true },
          pool := { conns := [], putFails := false }, pooled := none }
    ∧ ObfsConn.Close (mkObfs [.data [48, 13, 10, 13, 10]] 0 true false)
        { conns := [], putFails := false }
      = { conn := { rc := drainedRC, chunkLen := 2, pool := true,
                    eos := true, destroy := true },
          pool := { conns := [] ++ [{ rc := drainedRC, pool := true }],
                    putFails := false },
          pooled := some { rc := drainedRC, pool := true } }
    ∧ ObfsConn.Close (mkObfs [.err "boom"] 0 true false) { conns := [], putFails := false }
      = { conn := { rc := { conn := { input := [], output := [[48, 13, 10, 13, 10]],
                                      wfail := false, closed := true },
                            remain := [], wremain := [] },
                    pool := true, destroy := true },
          pool := { conns := [], putFails := false },
          pooled := none } :=
  ⟨close_protocol.1 _ _ (by decide),
   close_protocol.2.1 _ _ (by decide) (by decide),
   close_protocol.2.2.1 [],
   close_protocol.2.2.2 [] "boom"⟩

/-- C5: while parsing an inbound chunk-length header, a byte that is
neither a hexadecimal digit nor CR nor LF fails the read with the framing
error naming that byte; an LF before any digit has been accumulated fails
with the empty-length framing error; and a zero-byte read with no error
fails with the "short read" framing error. -/
theorem header_parse_framing_errors :
    (∀ (b0 : Nat) (l : List Nat) (evs : List InEvent) (p : Bool) (k : Nat),
       isHexDigit b0 = false → b0 ≠ 13 → b0 ≠ 10 → 1 ≤ k →
       (ObfsConn.Read (mkObfs (.data (b0 :: l) :: evs) 0 p false) k).1
         = .error (.badLenChar b0))
    ∧ (∀ (l : List Nat) (evs : List InEvent) (p : Bool) (k : Nat), 1 ≤ k →
       (ObfsConn.Read (mkObfs (.data (10 :: l) :: evs) 0 p false) k).1
         = .error .emptyChunkLen)
    ∧ (∀ (evs : List InEvent) (p : Bool) (k : Nat), 1 ≤ k →
       (ObfsConn.Read (mkObfs (.nilRead :: evs) 0 p false) k).1
         = .error .shortRead) := by
  refine ⟨?_, ?_, ?_⟩
  · intro b0 l evs p k hhex h13 h10 hk
    rw [read_mkObfs_eq, readInLock_badChar b0 hhex h13 h10 l evs p true k hk]
  · intro l evs p k hk
    rw [read_mkObfs_eq, readInLock_emptyLen l evs p true k hk]
  · intro evs p k hk
    rw [read_mkObfs_eq, readInLock_shortRead evs p true k hk]

/-- Witness for C5: the invalid hex digit `'g'` (103), an immediate LF, and
a zero-byte read. -/
theorem header_parse_framing_errors_witness :
    (isHexDigit 103 = false ∧ (103 : Nat) ≠ 13 ∧ (103 : Nat) ≠ 10 ∧ (1 : Nat) ≤ 5)
    ∧ (ObfsConn.Read (mkObfs [.data [103, 13, 10]] 0 false false) 5).1
        = .error (.badLenChar 103)
    ∧ (ObfsConn.Read (mkObfs [.data [10, 50]] 0 false false) 5).1
        = .error .emptyChunkLen
    ∧ (ObfsConn.Read (mkObfs [.nilRead] 0 false false) 5).1
        = .error .shortRead :=
  ⟨⟨by decide, by decide, by decide, by decide⟩,
   header_parse_framing_errors.1 103 [13, 10] [] false 5 (by decide) (by decide)
     (by decide) (by decide),
   header_parse_framing_errors.2.1 [50] [] false 5 (by decide),
   header_parse_framing_errors.2.2 [] false 5 (by decide)⟩

/-- C6: a `Read` finding another read in progress fails immediately with the
concurrency error, and a `Read` on a destroyed connection fails immediately
with the read-after-close error; in both cases the state (including the
chunk parser and the underlying connection) is returned unchanged — no I/O
is performed. -/
theorem read_guards (c : ObfsConn) (k : Nat) :
    (c.destroy = true → ObfsConn.Read c k = (.error .readAfterClose, c))
    ∧ (c.destroy = false → c.reading = true →
       ObfsConn.Read c k = (.error .concurrentRead, c)) := by
  constructor
  · intro h
    simp [ObfsConn.Read, h]
  · intro h1 h2
    simp [ObfsConn.Read, h1, h2]

/-- Witness for C6 on a destroyed connection and on a reading connection. -/
theorem read_guards_witness :
    ObfsConn.Read { mkObfs [] 0 false false with destroy := true } 5
      = (.error .readAfterClose, { mkObfs [] 0 false false with destroy := true })
    ∧ ObfsConn.Read (mkObfs [] 0 false true) 5
      = (.error .concurrentRead, mkObfs [] 0 false true) :=
  ⟨(read_guards _ 5).1 (by decide), (read_guards _ 5).2 (by decide) (by decide)⟩

/-- C7 counterexample: an accepted connection whose initial read yields a
single byte (fewer than 4, and not the disguise token) is wrapped as an
accept-role `ObfsConn`, not as the plain `RemainConn` passthrough the claim
requires — the source tests `n > 4`, so short reads fall into the framer
branch. -/
theorem accept_short_read_not_plain :
    (Conn.read (mkConn [.data [88]]) buffersize).1 = .ok [88]
    ∧ ([88] : List Nat).length < 4
    ∧ (obfsAcceptHandler (mkConn [.data [88]])).isPlain = false := by
  refine ⟨by decide, by decide, by decide⟩

/-- C7 amended: on a successful nonempty initial read, the handler wraps as
a plain `RemainConn` passthrough (peeked bytes as look-ahead) exactly when
*more than* 4 bytes were read and the first 4 are not `"POST"`; in every
other case (including reads of at most 4 bytes) it builds an accept-role
`ObfsConn` with the peeked bytes as look-ahead, the disguise response as
unsent bytes, and the listener's pool associated. -/
theorem accept_dispatch (conn : Conn) (bs : List Nat) (conn' : Conn)
    (h : Conn.read conn buffersize = (.ok bs, conn')) (hne : bs ≠ []) :
    (bs.length > 4 ∧ bs.take 4 ≠ postToken →
       obfsAcceptHandler conn = .plain { conn := conn', remain := bs, wremain := [] })
    ∧ (¬ (bs.length > 4 ∧ bs.take 4 ≠ postToken) →
       obfsAcceptHandler conn
         = .obfs { rc := { conn := conn', remain := bs, wremain := buildHTTPResponse },
                   req := true, pool := true }) := by
  unfold obfsAcceptHandler
  rw [h]
  have hlen : ¬ bs.length = 0 := by simpa [List.length_eq_zero] using hne
  constructor
  · intro hc
    simp only []
    rw [if_neg hlen, if_pos hc]
  · intro hc
    simp only []
    rw [if_neg hlen, if_neg hc]

/-- Witness for C7 amended: a 5-byte `"GET /"` peek goes to the passthrough
branch; a 4-byte `"POST"` peek goes to the framer branch. -/
theorem accept_dispatch_witness :
    (Conn.read (mkConn [.data [71, 69, 84, 32, 47]]) buffersize
        = (.ok [71, 69, 84, 32, 47], mkConn [])
     ∧ ([71, 69, 84, 32, 47] : List Nat) ≠ []
     ∧ (([71, 69, 84, 32, 47] : List Nat).length > 4
          ∧ ([71, 69, 84, 32, 47] : List Nat).take 4 ≠ postToken)
     ∧ obfsAcceptHandler (mkConn [.data [71, 69, 84, 32, 47]])
        = .plain { conn := mkConn [], remain := [71, 69, 84, 32, 47], wremain := [] })
    ∧ (¬ (([80, 79, 83, 84] : List Nat).length > 4
            ∧ ([80, 79, 83, 84] : List Nat).take 4 ≠ postToken)
       ∧ obfsAcceptHandler (mkConn [.data [80, 79, 83, 84]])
          = .obfs { rc := { conn := mkConn [], remain := [80, 79, 83, 84],
                            wremain := buildHTTPResponse },
                    req := true, pool := true }) :=
  ⟨⟨by decide, by decide, by decide,
    (accept_dispatch (mkConn [.data [71, 69, 84, 32, 47]]) [71, 69, 84, 32, 47]
        (mkConn []) (by decide) (by decide)).1 (by decide)⟩,
   ⟨by decide,
    (accept_dispatch (mkConn [.data [80, 79, 83, 84]]) [80, 79, 83, 84]
        (mkConn []) (by decide) (by decide)).2 (by decide)⟩⟩

/-- C8 counterexample: when `len b + off` equals `buffersize` exactly,
appending `b` would not overflow the fixed capacity, yet the code (testing
`n+c.off >= buffersize`) takes the immediate synchronous flush path: the
buffer stays empty, the background loop is not started, and one immediate
underlying write is issued. -/
theorem delay_write_boundary_flush :
    (List.replicate buffersize 7).length + ([] : List Nat).length ≤ buffersize
    ∧ (DelayConn.Write { conn := mkConn [], wbuf := [], started := false, signals := 0 }
         (List.replicate buffersize 7)).2.wbuf = []
    ∧ (DelayConn.Write { conn := mkConn [], wbuf := [], started := false, signals := 0 }
         (List.replicate buffersize 7)).2.started = false
    ∧ (DelayConn.Write { conn := mkConn [], wbuf := [], started := false, signals := 0 }
         (List.replicate buffersize 7)).2.conn.output
        = [List.replicate buffersize 7] := by
  have hlen : (List.replicate buffersize 7).length = buffersize := by simp
  have hb0 : ¬ buffersize = 0 := by decide
  refine ⟨by simp, ?_, ?_, ?_⟩ <;>
    simp [DelayConn.Write, Conn.write, hlen, hb0]

/-- C8 amended: for `len b > 0`, if `len b + off` *reaches or exceeds* the
fixed capacity, the buffer contents and `b` are sent together as one
immediate synchronous underlying write and the offset is reset to zero;
otherwise `b` is appended (the offset grows by `len b` and stays strictly
below the capacity), the flush loop's started flag is set, and the loop is
signaled. -/
theorem delay_write_amended (c : DelayConn) (b : List Nat) (hb : b ≠ []) :
    (buffersize ≤ b.length + c.wbuf.length → c.conn.wfail = false →
       DelayConn.Write c b
         = (.ok b.length,
            { c with
              wbuf := [],
              conn := { c.conn with output := c.conn.output ++ [c.wbuf ++ b] } }))
    ∧ (b.length + c.wbuf.length < buffersize →
       DelayConn.Write c b
         = (.ok b.length,
            { c with wbuf := c.wbuf ++ b, started := true, signals := c.signals + 1 })
       ∧ (c.wbuf ++ b).length < buffersize) := by
  have hlen : ¬ b.length = 0 := by simpa [List.length_eq_zero] using hb
  constructor
  · intro h1 h2
    simp [DelayConn.Write, Conn.write, hlen, h1, h2]
  · intro h1
    constructor
    · simp [DelayConn.Write, hlen, h1, Nat.not_le.mpr h1]
    · simp only [List.length_append]
      omega

/-- Witness for C8 amended: a capacity-filling write flushes immediately; a
1-byte write is buffered, starts the loop and signals it. -/
theorem delay_write_amended_witness :
    (buffersize ≤ (List.replicate buffersize 7).length + ([] : List Nat).length
     ∧ DelayConn.Write { conn := mkConn [], wbuf := [], started := false, signals := 0 }
         (List.replicate buffersize 7)
        = (.ok (List.replicate buffersize 7).length,
           { conn := { input := [], output := [List.replicate buffersize 7],
                       wfail := false, closed := false },
             wbuf := [], started := false, signals := 0 }))
    ∧ (DelayConn.Write { conn := mkConn [], wbuf := [], started := false, signals := 0 } [9]
        = (.ok 1, { conn := mkConn [], wbuf := [9], started := true, signals := 1 })
       ∧ (([] : List Nat) ++ [9]).length < buffersize) := by
  refine ⟨⟨by simp, ?_⟩, ?_⟩
  · exact (delay_write_amended
        { conn := mkConn [], wbuf := [], started := false, signals := 0 }
        (List.replicate buffersize 7)
        (List.length_pos.mp (by rw [List.length_replicate]; decide))).1
        (by simp) rfl
  · exact (delay_write_amended
        { conn := mkConn [], wbuf := [], started := false, signals := 0 } [9]
        (by decide)).2 (by decide)

/-- C9 counterexample: a first `Read` that consumes the peer's end-of-stream
marker leaves `eos = true` (with `chunkLen` still 2 and 3 bytes pending on
the underlying stream), and a second `Read` call on that very state still
consumes all 3 pending bytes from the underlying connection — the claim
that no subsequent `Read` attempts further underlying reads is false on the
code, which guards `Read` only by `destroy`/`reading`, never by `eos`. -/
theorem read_after_eos_still_reads :
    ((ObfsConn.Read (mkObfs [.data [48, 13, 10, 13, 10, 97, 98, 99]] 0 false false) 5).2).eos
        = true
    ∧ ((ObfsConn.Read (mkObfs [.data [48, 13, 10, 13, 10, 97, 98, 99]] 0 false false) 5).2).rc.conn.input
        = [.data [97, 98, 99]]
    ∧ ((ObfsConn.Read
          ((ObfsConn.Read (mkObfs [.data [48, 13, 10, 13, 10, 97, 98, 99]] 0 false false) 5).2)
          5).2).rc.conn.input
        = [] := by
  refine ⟨by decide, by decide, by decide⟩

/-- C9 amended: mid-chunk, `chunkLen` tracks exactly the not-yet-consumed
bytes (payload plus 2-byte trailer) of the open inbound chunk: when the
pending stream starts with the `chunkLen` remaining chunk bytes, a
`readInLock` consumes `min chunkLen (len b)` of them, delivers all but any
consumed trailer bytes, and the new `chunkLen` again equals the length of
the chunk bytes left pending.  Once the end-of-stream flag is set, the
graceful-close drain loop attempts no further reads; a direct `Read`,
however, is guarded only by `destroy`/`reading`, not by `eos`. -/
theorem chunk_len_invariant :
    (∀ (body : List Nat) (evs : List InEvent) (p : Bool) (k : Nat),
       3 ≤ body.length → 1 ≤ k →
       ObfsConn.readInLock (mkObfs (.data body :: evs) body.length p false) k
         = (.ok (body.take
              (if body.length - min body.length k < 2
               then min body.length k - (2 - (body.length - min body.length k))
               else min body.length k)),
            mkObfs (if min body.length k < body.length
                    then .data (body.drop (min body.length k)) :: evs else evs)
              (body.length - min body.length k) p false)
       ∧ (body.drop (min body.length k)).length = body.length - min body.length k)
    ∧ (∀ (fuel : Nat) (c : ObfsConn), 1 ≤ fuel → c.eos = true →
       closeDrainLoop fuel c = (none, c, true)) := by
  constructor
  · intro body evs p k h3 hk
    constructor
    · unfold ObfsConn.readInLock
      rw [if_neg (by omega : ¬ k = 0)]
      rw [drainTrailer_big _ (by rw [mkObfs_chunkLen]; omega)]
      simp only []
      rw [parseHeader_skip _ (by rw [mkObfs_chunkLen]; omega)]
      simp only []
      exact readBody_payload body evs p false k h3 hk
    · simp only [List.length_drop]
  · intro fuel c hf h
    obtain ⟨f, rfl⟩ : ∃ f, fuel = f + 1 := ⟨fuel - 1, by omega⟩
    rw [closeDrainLoop, if_pos h]

/-- Witness for C9 amended: a 5-byte open chunk read with a large buffer,
and a drain loop started on an `eos` connection. -/
theorem chunk_len_invariant_witness :
    ((3 : Nat) ≤ ([1, 2, 3, 4, 5] : List Nat).length ∧ (1 : Nat) ≤ 9)
    ∧ (ObfsConn.readInLock (mkObfs [.data [1, 2, 3, 4, 5]] ([1, 2, 3, 4, 5] : List Nat).length false false) 9
         = (.ok (([1, 2, 3, 4, 5] : List Nat).take
              (if ([1, 2, 3, 4, 5] : List Nat).length - min ([1, 2, 3, 4, 5] : List Nat).length 9 < 2
               then min ([1, 2, 3, 4, 5] : List Nat).length 9
                 - (2 - (([1, 2, 3, 4, 5] : List Nat).length - min ([1, 2, 3, 4, 5] : List Nat).length 9))
               else min ([1, 2, 3, 4, 5] : List Nat).length 9)),
            mkObfs (if min ([1, 2, 3, 4, 5] : List Nat).length 9 < ([1, 2, 3, 4, 5] : List Nat).length
                    then .data (([1, 2, 3, 4, 5] : List Nat).drop (min ([1, 2, 3, 4, 5] : List Nat).length 9)) :: []
                    else [])
              (([1, 2, 3, 4, 5] : List Nat).length - min ([1, 2, 3, 4, 5] : List Nat).length 9) false false)
       ∧ (([1, 2, 3, 4, 5] : List Nat).drop (min ([1, 2, 3, 4, 5] : List Nat).length 9)).length
          = ([1, 2, 3, 4, 5] : List Nat).length - min ([1, 2, 3, 4, 5] : List Nat).length 9)
    ∧ closeDrainLoop 1 { mkObfs [] 2 false false with eos := true }
        = (none, { mkObfs [] 2 false false with eos := true }, true) :=
  ⟨⟨by decide, by decide⟩,
   chunk_len_invariant.1 [1, 2, 3, 4, 5] [] false 9 (by decide) (by decide),
   chunk_len_invariant.2 1 { mkObfs [] 2 false false with eos := true } (by decide) (by decide)⟩

/-- C10: for a `RemainConn` with nonempty `wremain`, a failing combined
underlying write makes `Write` return the error (counting zero bytes: the
result carries no count) and leaves both `wremain` and the underlying
output log unchanged for the next attempt; `wremain` is cleared exactly
when the combined write succeeds, which then logs one underlying write of
`wremain ++ b` and reports `len b`. -/
theorem remain_write_wremain (rc : RemainConn) (b : List Nat) (hw : rc.wremain ≠ []) :
    (rc.conn.wfail = true →
       (RemainConn.Write rc b).1 = .error (.ioErr "write error")
       ∧ ((RemainConn.Write rc b).2).wremain = rc.wremain
       ∧ ((RemainConn.Write rc b).2).conn.output = rc.conn.output)
    ∧ (rc.conn.wfail = false →
       (RemainConn.Write rc b).1 = .ok b.length
       ∧ ((RemainConn.Write rc b).2).wremain = []
       ∧ ((RemainConn.Write rc b).2).conn.output
          = rc.conn.output ++ [rc.wremain ++ b]) := by
  constructor
  · intro h
    refine ⟨?_, ?_, ?_⟩ <;> simp [RemainConn.Write, Conn.write, hw, h]
  · intro h
    refine ⟨?_, ?_, ?_⟩ <;> simp [RemainConn.Write, Conn.write, hw, h]

/-- Witness for C10 on a failing and on a succeeding underlying
connection, with `wremain = [42]` and `b = [7]`. -/
theorem remain_write_wremain_witness :
    (({ conn := { input := [], output := [], wfail := true, closed := false },
        remain := [], wremain := [42] } : RemainConn).wremain ≠ []
     ∧ (RemainConn.Write
          { conn := { input := [], output := [], wfail := true, closed := false },
            remain := [], wremain := [42] } [7]).1 = .error (.ioErr "write error")
     ∧ ((RemainConn.Write
          { conn := { input := [], output := [], wfail := true, closed := false },
            remain := [], wremain := [42] } [7]).2).wremain = [42]
     ∧ ((RemainConn.Write
          { conn := { input := [], output := [], wfail := true, closed := false },
            remain := [], wremain := [42] } [7]).2).conn.output = [])
    ∧ ((RemainConn.Write
          { conn := { input := [], output := [], wfail := false, closed := false },
            remain := [], wremain := [42] } [7]).1 = .ok 1
       ∧ ((RemainConn.Write
            { conn := { input := [], output := [], wfail := false, closed := false },
              remain := [], wremain := [42] } [7]).2).wremain = []
       ∧ ((RemainConn.Write
            { conn := { input := [], output := [], wfail := false, closed := false },
              remain := [], wremain := [42] } [7]).2).conn.output = [[42, 7]]) := by
  refine ⟨⟨by decide, ?_, ?_, ?_⟩, ?_, ?_, ?_⟩
  · exact ((remain_write_wremain _ [7] (by decide)).1 rfl).1
  · exact ((remain_write_wremain _ [7] (by decide)).1 rfl).2.1
  · exact ((remain_write_wremain _ [7] (by decide)).1 rfl).2.2
  · exact ((remain_write_wremain _ [7] (by decide)).2 rfl).1
  · exact ((remain_write_wremain _ [7] (by decide)).2 rfl).2.1
  · exact ((remain_write_wremain _ [7] (by decide)).2 rfl).2.2
